import Mathlib

/-!
# Verification of the DataFixer analysis-and-cleaning engine

Shallow embedding of the core of `src/backend/main.py` and
`src/backend/detection.py`: the in-memory table, the Column Profiler
(`generate_data_report`), the Issue Detector (`DataIssueDetector`),
the Cleaning Engine (`perform_standard_cleaning`) and the Cleaning
Predictor (`preview_cleaning`).

Modelling conventions:
* A pandas `DataFrame` is a `Table`: an ordered list of columns, each a
  tagged variant `numeric` (cells `Option Rat`) or `text`
  (cells `Option String`); `none` is a null/NaN cell.  Machine floats
  are modelled by exact rationals.
* Pandas operations that raise (`int()` on a multi-column selection for
  a duplicated column name, integer division by zero on an empty frame)
  are modelled with `Except`.
* `DataFrame.duplicated` treats two NaN cells in the same column as
  equal, so a row is an ordered tuple of `Cell`s with `null = null`.
* The profiler fields `dtype` (string label), `outlier_count`,
  `is_numeric_like` and the `reasons` list are not modelled: no verified
  property below depends on them.
-/

/-- A single table cell as it takes part in exact-duplicate-row
comparison (`DataFrame.duplicated` semantics: NaN equals NaN). -/
inductive Cell where
  | num (q : Rat)
  | str (s : String)
  | null
deriving DecidableEq, Repr

/-- Column payload: one tagged variant chosen at load time, following
the dtype dichotomy the source dispatches on (`select_dtypes(np.number)`
vs `select_dtypes(['object'])`). -/
inductive ColData where
  | numeric (cells : List (Option Rat))
  | text (cells : List (Option String))
deriving DecidableEq, Repr

/-- A named column of a table. -/
structure Col where
  name : String
  data : ColData
deriving DecidableEq, Repr

/-- An in-memory table: the ordered list of named columns. -/
structure Table where
  cols : List Col
deriving DecidableEq, Repr

/-- Number of cells physically stored in a column payload. -/
def ColData.len : ColData → Nat
  | .numeric cs => cs.length
  | .text cs => cs.length

/-- Number of null cells of a column payload. -/
def ColData.missingCount : ColData → Nat
  | .numeric cs => cs.countP (fun o => o.isNone)
  | .text cs => cs.countP (fun o => o.isNone)

/-- Number of cells physically stored in a column. -/
def Col.len (c : Col) : Nat := c.data.len

/-- `df[col].isnull().sum()`: number of null cells of one column. -/
def Col.missingCount (c : Col) : Nat := c.data.missingCount

/-- `df[col].nunique()`: distinct non-null values of one column. -/
def Col.uniqueCount (c : Col) : Nat :=
  match c.data with
  | .numeric cs => (cs.filterMap id).dedup.length
  | .text cs => (cs.filterMap id).dedup.length

/-- Whether the column holds at least one non-null cell. -/
def Col.hasPresent (c : Col) : Bool :=
  match c.data with
  | .numeric cs => cs.any (fun o => o.isSome)
  | .text cs => cs.any (fun o => o.isSome)

/-- The cell of a column at row index `i` (null beyond the stored
cells, which never happens on a rectangular table). -/
def Col.cellAt (c : Col) (i : Nat) : Cell :=
  match c.data with
  | .numeric cs =>
    match cs.getD i none with
    | some q => .num q
    | none => .null
  | .text cs =>
    match cs.getD i none with
    | some s => .str s
    | none => .null

/-- `len(df)` / `df.shape[0]`: the row count of a table. -/
def Table.nrows (t : Table) : Nat :=
  t.cols.foldr (fun c m => max c.len m) 0

/-- `df.shape[1]`: the column count. -/
def Table.ncols (t : Table) : Nat := t.cols.length

/-- `df.columns`: the ordered list of column names. -/
def Table.names (t : Table) : List String := t.cols.map Col.name

/-- Row `i` of the table as an ordered tuple of cells. -/
def Table.row (t : Table) (i : Nat) : List Cell :=
  t.cols.map (fun c => c.cellAt i)

/-- Row `i` is not an exact duplicate of any earlier row. -/
def Table.isNewRow (t : Table) (i : Nat) : Bool :=
  (List.range i).all (fun j => t.row j != t.row i)

/-- `df.duplicated().sum()`: rows equal to some earlier row
(`src/backend/main.py` line 51). -/
def Table.dupRowCount (t : Table) : Nat :=
  (List.range t.nrows).countP (fun i => ! t.isNewRow i)

/-- The row indices `df.drop_duplicates` keeps (first occurrences). -/
def Table.keepIndices (t : Table) : List Nat :=
  (List.range t.nrows).filter t.isNewRow

/-- Restrict a column payload to the given row indices, in order. -/
def ColData.select (d : ColData) (ks : List Nat) : ColData :=
  match d with
  | .numeric cs => .numeric (ks.map (fun i => cs.getD i none))
  | .text cs => .text (ks.map (fun i => cs.getD i none))

/-- Restrict a column to the given row indices, in order. -/
def Col.select (c : Col) (ks : List Nat) : Col :=
  ⟨c.name, c.data.select ks⟩

/-- `df.drop_duplicates()` (`src/backend/main.py` line 170): keep the
first occurrence of every distinct row. -/
def dedupTable (t : Table) : Table :=
  ⟨t.cols.map (fun c => c.select t.keepIndices)⟩

/-- Python `round` rounds an exact half to the nearest even integer
(the binary-float representation of the argument is not modelled).  The
fractional part `q - floor q` is compared with one half on the
numerators over the common denominator `q.den`, keeping the function
kernel-computable. -/
def roundHalfEven (q : Rat) : Int :=
  let f := q.floor
  let rNum := q.num - f * (q.den : Int)
  if 2 * rNum < (q.den : Int) then f
  else if (q.den : Int) < 2 * rNum then f + 1
  else if f % 2 = 0 then f else f + 1

/-- Multiplication by 100 written on the numerator, so that it
kernel-computes (`ratMul100_eq` below checks it equals `q * 100`). -/
def ratMul100 (q : Rat) : Rat := mkRat (q.num * 100) q.den

/-- `round(x, 2)`: round to two decimal places. -/
def round2 (q : Rat) : Rat := mkRat (roundHalfEven (ratMul100 q)) 100

/-- `(mc / n) * 100`, the missing percentage of a column with `mc`
nulls among `n` rows, as the exact rational `mc * 100 / n`
(`ratPct_eq_div` below checks the reformulation). -/
def ratPct (mc n : Nat) : Rat := mkRat (mc * 100 : Nat) n

/-- Lowercasing a string character by character (Python `str.lower`;
the multi-character Unicode expansions are not modelled). -/
def strLower (s : String) : String := String.mk (s.toList.map Char.toLower)

/-- The per-column entries of the profiler report that the verified
properties depend on (`src/backend/main.py` lines 62-118). -/
structure ColumnDetails where
  missing_values : Nat
  missing_percentage : Rat
  unique_values : Nat
  mixed_capitalization : Bool
  has_problem : Bool
deriving DecidableEq, Repr

/-- The per-column body of the `generate_data_report` loop, for a table
with `n` rows, reached only when `n > 0` and the column name is unique
(otherwise the loop raises first, see `detailsLoop`); hence
`has_problem` is the `missing_count > 0` branch of line 117 and the 0.2
capitalization threshold is the exact rational 1/5. -/
def detailsOf (n : Nat) (c : Col) : ColumnDetails :=
  let mc := c.missingCount
  let uniq := c.uniqueCount
  let mixed :=
    match c.data with
    | .numeric _ => false
    | .text cs =>
      let nonNull := cs.filterMap id
      let lowerUnique := (nonNull.map strLower).dedup.length
      let ratio : Rat := if uniq = 0 then 0 else mkRat ((uniq : Int) - (lowerUnique : Int)) uniq
      decide (ratio ≥ mkRat 1 5)
  { missing_values := mc
    missing_percentage := round2 (ratPct mc n)
    unique_values := uniq
    mixed_capitalization := mixed
    has_problem := decide (mc > 0) }

/-- The `overview` block of the report (`src/backend/main.py`
lines 46-52), built before the per-column loop and total. -/
structure Overview where
  rows : Nat
  columns : Nat
  total_missing_values : Nat
  duplicate_rows : Nat
deriving DecidableEq, Repr

/-- The profiler report: overview plus one details entry per column
name, in column order. -/
structure Report where
  overview : Overview
  column_details : List (String × ColumnDetails)
deriving DecidableEq, Repr

/-- The overview block of `generate_data_report`. -/
def overviewOf (t : Table) : Overview :=
  { rows := t.nrows
    columns := t.ncols
    total_missing_values := (t.cols.map Col.missingCount).sum
    duplicate_rows := t.dupRowCount }

/-- The `for col in df.columns` loop of `generate_data_report`
(lines 59-120).  For a duplicated column name `df[col]` is a
two-or-more-column frame and `int(col_data.isnull().sum())` (line 61)
raises `TypeError`; otherwise, with zero rows the plain-integer
division `missing_count / len(df)` (line 65) raises
`ZeroDivisionError`.  Both are modelled as `Except.error`. -/
def detailsLoop (t : Table) : List Col → Except String (List (String × ColumnDetails))
  | [] => .ok []
  | c :: rest =>
    if 1 < t.cols.countP (fun c2 => c2.name == c.name) then
      .error "TypeError: cannot convert the series to int"
    else if t.nrows = 0 then
      .error "ZeroDivisionError: division by zero"
    else
      match detailsLoop t rest with
      | .ok ds => .ok ((c.name, detailsOf t.nrows c) :: ds)
      | .error e => .error e

/-- `generate_data_report` (`src/backend/main.py` lines 45-122). -/
def generate_data_report (t : Table) : Except String Report :=
  match detailsLoop t t.cols with
  | .ok ds => .ok { overview := overviewOf t, column_details := ds }
  | .error e => .error e

/-- `DataIssueDetector.detect_duplicates` on a delimited-text source
(`src/backend/detection.py` line 37): `self.data.duplicated().sum()`. -/
def detect_duplicates_csv (t : Table) : Nat :=
  (List.range t.nrows).countP (fun i => ! t.isNewRow i)

/-- A JSON scalar as it appears in a structured-records input (the
booleans and nested documents of full JSON are outside the embedding). -/
inductive JVal where
  | num (q : Rat)
  | str (s : String)
  | null
deriving DecidableEq, Repr

/-- One structured record: an ordered association list with distinct
keys, as parsed from a JSON object. -/
abbrev JRec := List (String × JVal)

/-- Lexicographic comparison of character lists (string order by code
points, as `json.dumps(sort_keys=True)` and pandas sort strings). -/
def charListLe : List Char → List Char → Bool
  | [], _ => true
  | _ :: _, [] => false
  | a :: as, b :: bs => if a < b then true else if b < a then false else charListLe as bs

/-- String order by code points, kernel-computable. -/
def strLe (a b : String) : Bool := charListLe a.toList b.toList

/-- Insert a key-value pair into a key-sorted association list. -/
def insertByKey (p : String × JVal) : JRec → JRec
  | [] => [p]
  | q :: rest => if strLe p.1 q.1 then p :: q :: rest else q :: insertByKey p rest

/-- `json.dumps(item, sort_keys=True)` canonicalisation: the record
with its keys sorted; two records serialize equally iff their sorted
association lists are equal. -/
def sortRec (r : JRec) : JRec := r.foldr insertByKey []

/-- The seen-set loop of `detect_duplicates` on structured records
(`src/backend/detection.py` lines 39-48). -/
def detectDupJsonGo : List JRec → List JRec → Nat
  | [], _ => 0
  | r :: rest, seen =>
    if sortRec r ∈ seen then detectDupJsonGo rest seen + 1
    else detectDupJsonGo rest (sortRec r :: seen)

/-- `DataIssueDetector.detect_duplicates` on a structured-records
source: count records whose canonical serialization matches an earlier
record's. -/
def detect_duplicates_json (recs : List JRec) : Nat :=
  detectDupJsonGo recs []

/-- A present JSON `null` and an absent key both load as a null cell. -/
def jcell (o : Option JVal) : Option JVal :=
  match o with
  | some JVal.null => none
  | some v => some v
  | none => none

/-- `pd.DataFrame(list_of_records)` column set: the union of all record
keys in first-seen order. -/
def jKeys (recs : List JRec) : List String :=
  recs.foldl (fun acc r => acc ++ ((r.map Prod.fst).filter (fun k => ! acc.contains k))) []

/-- Build one loaded column from the per-record values of a key:
`numeric` when every non-null value is a number (an all-null column
loads as float64, hence numeric), `text` when every non-null value is a
string; a mixed column (a pandas object column holding non-strings) is
outside the embedding. -/
def colOfVals (k : String) (vs : List (Option JVal)) : Option Col :=
  if vs.all (fun o => match o with | none => true | some (JVal.num _) => true | _ => false) then
    some ⟨k, .numeric (vs.map (fun o => match o with | some (JVal.num q) => some q | _ => none))⟩
  else if vs.all (fun o => match o with | none => true | some (JVal.str _) => true | _ => false) then
    some ⟨k, .text (vs.map (fun o => match o with | some (JVal.str s) => some s | _ => none))⟩
  else none

/-- `pd.DataFrame(list_of_records)`: one row per record, with missing
keys per row treated as null. -/
def recordsToTable (recs : List JRec) : Option Table :=
  match (jKeys recs).mapM (fun k => colOfVals k (recs.map (fun r => jcell (r.lookup k)))) with
  | some cols => some ⟨cols⟩
  | none => none

/-- `Series.mean()` with NaNs skipped: `none` exactly when no non-null
value exists. -/
def ratMean (l : List Rat) : Option Rat :=
  if l.isEmpty then none else some (l.sum / (l.length : Rat))

/-- Insert into a sorted list of rationals. -/
def insertRat (q : Rat) : List Rat → List Rat
  | [] => [q]
  | x :: rest => if q ≤ x then q :: x :: rest else x :: insertRat q rest

/-- Sort a list of rationals ascending. -/
def sortRats (l : List Rat) : List Rat := l.foldr insertRat []

/-- `Series.median()` with NaNs skipped: middle element of the sorted
values, or the average of the two middle elements; `none` when no
non-null value exists. -/
def ratMedian (l : List Rat) : Option Rat :=
  let s := sortRats l
  let n := s.length
  if n = 0 then none
  else if n % 2 = 1 then some (s.getD (n / 2) 0)
  else some ((s.getD (n / 2 - 1) 0 + s.getD (n / 2) 0) / 2)

/-- The least of a nonempty list of strings in code-point order. -/
def leastStr : List String → Option String
  | [] => none
  | s :: rest => some (rest.foldl (fun a b => if strLe b a then b else a) s)

/-- `Series.mode()[0]`: the most frequent value; pandas returns the
modes sorted ascending, so ties break to the least value.  `none`
exactly when the list is empty. -/
def strMode (l : List String) : Option String :=
  let ds := l.dedup
  let mx := (ds.map (fun s => l.count s)).foldr max 0
  leastStr (ds.filter (fun s => l.count s == mx))

/-- The numeric-fill branch of `perform_standard_cleaning`
(lines 192-212): fill nulls with the mean, falling back to the median
and then to the constant 0 when undefined. -/
def fillNumData (d : ColData) : ColData :=
  match d with
  | .numeric cs =>
    if cs.any (fun o => o.isNone) then
      let nonNull := cs.filterMap id
      let v :=
        match ratMean nonNull with
        | some m => m
        | none =>
          match ratMedian nonNull with
          | some m => m
          | none => 0
      .numeric (cs.map (fun o => some (o.getD v)))
    else d
  | .text _ => d

/-- The object-fill branch of `perform_standard_cleaning`
(lines 215-235): fill nulls with the first mode of the non-null values,
or with the literal "Unknown" when every value is null. -/
def fillTextData (d : ColData) : ColData :=
  match d with
  | .text cs =>
    if cs.any (fun o => o.isNone) then
      let nonNull := cs.filterMap id
      match strMode nonNull with
      | some m => .text (cs.map (fun o => some (o.getD m)))
      | none => .text (cs.map (fun o => some (o.getD "Unknown")))
    else d
  | .numeric _ => d

/-- Python whitespace for `str.strip` (modelled by `Char.isWhitespace`). -/
def wsChar (c : Char) : Bool := c.isWhitespace

/-- Python `str.strip()` on the character list: drop whitespace from
both ends. -/
def pyStripL (l : List Char) : List Char :=
  ((l.dropWhile wsChar).reverse.dropWhile wsChar).reverse

/-- Python `str.strip()`. -/
def pyStrip (s : String) : String := String.mk (pyStripL s.toList)

/-- `Series.astype(str)` on one cell: a null cell renders as the string
"nan" (never reached inside the engine, which fills nulls first). -/
def cellStr (o : Option String) : String :=
  match o with
  | some s => s
  | none => "nan"

/-- The whitespace-strip pass over an object column (lines 238-242):
`astype(str).str.strip()`. -/
def stripData (d : ColData) : ColData :=
  match d with
  | .text cs => .text (cs.map (fun o => some (pyStrip (cellStr o))))
  | .numeric _ => d

/-- A character kept by the final column-name regex `[^a-z0-9_]`:
a lowercase ASCII letter, a digit, or the underscore. -/
def allowedChar (c : Char) : Bool :=
  (97 ≤ c.toNat && c.toNat ≤ 122) || (48 ≤ c.toNat && c.toNat ≤ 57) || c.toNat == 95

/-- Column-name normalisation (lines 246-250): strip, lowercase,
spaces to underscores, drop everything outside `[a-z0-9_]`. -/
def cleanName (s : String) : String :=
  String.mk ((((pyStripL s.toList).map Char.toLower).map
    (fun c => if c = ' ' then '_' else c)).filter allowedChar)

/-- Numeric fill applied to a column (identity on object columns). -/
def fillNumCol (c : Col) : Col := ⟨c.name, fillNumData c.data⟩

/-- Object fill applied to a column (identity on numeric columns). -/
def fillTextCol (c : Col) : Col := ⟨c.name, fillTextData c.data⟩

/-- Whitespace strip applied to a column (identity on numeric columns). -/
def stripCol (c : Col) : Col := ⟨c.name, stripData c.data⟩

/-- Column-name normalisation applied to a column. -/
def renameCol (c : Col) : Col := ⟨cleanName c.name, c.data⟩

/-- The drop criterion of lines 174-183 for a table with `n` rows:
`missing_count / len(df) >= missing_threshold`.  With `n = 0` the
numpy division yields NaN and `NaN >= threshold` is false, hence the
guard. -/
def shouldDrop (n : Nat) (th : Rat) (c : Col) : Bool :=
  if n = 0 then false else decide (mkRat (c.missingCount : Int) n ≥ th)

/-- Lines 186-189: drop every high-missing column unless the strategy
is "fill".  (The source also skips the call when no column qualifies;
filtering with an all-false predicate is the same table.) -/
def dropStep (th : Rat) (fs : String) (t : Table) : Table :=
  if fs = "fill" then t
  else ⟨t.cols.filter (fun c => ! shouldDrop t.nrows th c)⟩

/-- The numeric-fill loop over the table (lines 192-212). -/
def fillNumStep (t : Table) : Table := ⟨t.cols.map fillNumCol⟩

/-- The object-fill loop over the table (lines 215-235). -/
def fillTextStep (t : Table) : Table := ⟨t.cols.map fillTextCol⟩

/-- The whitespace-strip loop over the table (lines 238-242). -/
def stripStep (t : Table) : Table := ⟨t.cols.map stripCol⟩

/-- The column-name normalisation (lines 246-250). -/
def renameStep (t : Table) : Table := ⟨t.cols.map renameCol⟩

/-- `perform_standard_cleaning` (`src/backend/main.py` lines 153-254):
deduplicate, drop high-missing columns unless filling, impute numeric
then object columns, strip whitespace, normalise column names.
Faithful on tables with pairwise-distinct column names (with a
duplicated name the source raises at line 182, where the truth value of
a multi-column comparison is ambiguous). -/
def perform_standard_cleaning (t : Table) (th : Rat) (fs : String) : Table :=
  renameStep (stripStep (fillTextStep (fillNumStep (dropStep th fs (dedupTable t)))))

/-- The per-column composition the engine applies to every retained
column after deduplication. -/
def colTransform (c : Col) : Col :=
  renameCol (stripCol (fillTextCol (fillNumCol c)))

/-- The deduplicated columns the engine retains under a config. -/
def keptCols (t : Table) (th : Rat) (fs : String) : List Col :=
  if fs = "fill" then (dedupTable t).cols
  else (dedupTable t).cols.filter (fun c => ! shouldDrop (dedupTable t).nrows th c)

/-- The two locals of `perform_standard_cleaning`: the caller's frame
`df` and the working copy `df_cleaned`. -/
structure CleanState where
  df : Table
  df_cleaned : Table
deriving DecidableEq, Repr

/-- Line 167, `df_cleaned = df.copy()`: a deep, unaliased copy. -/
def stmtCopy (s : CleanState) : CleanState := { s with df_cleaned := s.df }

/-- Line 170, `df_cleaned.drop_duplicates(inplace=True)`. -/
def stmtDedup (s : CleanState) : CleanState :=
  { s with df_cleaned := dedupTable s.df_cleaned }

/-- Lines 173-189, the column-drop phase on `df_cleaned`. -/
def stmtDrop (th : Rat) (fs : String) (s : CleanState) : CleanState :=
  { s with df_cleaned := dropStep th fs s.df_cleaned }

/-- Lines 192-212, the numeric fills on `df_cleaned`. -/
def stmtFillNum (s : CleanState) : CleanState :=
  { s with df_cleaned := fillNumStep s.df_cleaned }

/-- Lines 215-235, the object fills on `df_cleaned`. -/
def stmtFillText (s : CleanState) : CleanState :=
  { s with df_cleaned := fillTextStep s.df_cleaned }

/-- Lines 238-242, the whitespace strip on `df_cleaned`. -/
def stmtStrip (s : CleanState) : CleanState :=
  { s with df_cleaned := stripStep s.df_cleaned }

/-- Lines 246-250, the column renaming on `df_cleaned`. -/
def stmtRename (s : CleanState) : CleanState :=
  { s with df_cleaned := renameStep s.df_cleaned }

/-- The whole body of `perform_standard_cleaning` as a sequence of
statements over the two table-valued locals, starting from the caller's
argument bound to `df`. -/
def runStandardCleaning (t : Table) (th : Rat) (fs : String) : CleanState :=
  stmtRename (stmtStrip (stmtFillText (stmtFillNum (stmtDrop th fs
    (stmtDedup (stmtCopy ⟨t, t⟩))))))

/-- `preview_cleaning` per-column classification (line 456):
`will_be_dropped` iff the raw-table missing percentage reaches the
threshold and the strategy is not "fill"; returned as the names so
classified, in column order. -/
def preview_will_be_dropped (t : Table) (th : Rat) (fs : String) : List String :=
  (t.cols.filter (fun c => shouldDrop t.nrows th c && fs != "fill")).map Col.name

/-- The `columns_to_drop` list built by `preview_cleaning`: line 475
appends a column once when its missing percentage reaches the
threshold, and line 483 appends the same column again when it is also
classified `will_be_dropped`. -/
def preview_columns_to_drop (t : Table) (th : Rat) (fs : String) : List String :=
  t.cols.foldr
    (fun c acc =>
      (if shouldDrop t.nrows th c then [c.name] else []) ++
      (if shouldDrop t.nrows th c && fs != "fill" then [c.name] else []) ++ acc)
    []

/-- Line 491: `high_missing_columns = len(cleaning_preview['columns_to_drop'])`. -/
def preview_high_missing_columns (t : Table) (th : Rat) (fs : String) : Nat :=
  (preview_columns_to_drop t th fs).length

/-- Line 497: the percentage in the `estimated_improvement` summary,
`high_missing_columns / len(df.columns) * 100` as an exact rational. -/
def preview_estimated_reduction (t : Table) (th : Rat) (fs : String) : Rat :=
  ratPct (preview_high_missing_columns t th fs) t.ncols

/-- Line 496: `columns_after_cleaning = len(df.columns) - high_missing_columns`. -/
def preview_columns_after_cleaning (t : Table) (th : Rat) (fs : String) : Int :=
  (t.ncols : Int) - (preview_high_missing_columns t th fs : Int)

/-- Sanity check: `ratMul100` is multiplication by 100. -/
theorem ratMul100_eq (q : Rat) : ratMul100 q = q * 100 := by
  unfold ratMul100
  rw [Rat.mkRat_eq_div]
  push_cast
  rw [mul_div_right_comm, Rat.num_div_den]

/-- Sanity check: `ratPct` is the percentage `mc / n * 100`. -/
theorem ratPct_eq_div (mc n : Nat) : ratPct mc n = (mc : Rat) / (n : Rat) * 100 := by
  unfold ratPct
  rw [Rat.mkRat_eq_div]
  push_cast
  rw [mul_div_right_comm]

/-- The drop criterion, written with rational division. -/
theorem shouldDrop_iff (n : Nat) (th : Rat) (c : Col) :
    shouldDrop n th c = true ↔ n ≠ 0 ∧ (c.missingCount : Rat) / (n : Rat) ≥ th := by
  unfold shouldDrop
  split
  · simp [*]
  · rw [Rat.mkRat_eq_div]
    push_cast
    simp [*]

/-- The engine's columns are the per-column transform of the retained
deduplicated columns. -/
theorem clean_cols (t : Table) (th : Rat) (fs : String) :
    (perform_standard_cleaning t th fs).cols = (keptCols t th fs).map colTransform := by
  unfold perform_standard_cleaning keptCols renameStep stripStep fillTextStep fillNumStep dropStep
  by_cases h : fs = "fill" <;>
    simp [h, List.map_map, colTransform, Function.comp]

/-- C5: the Cleaning Engine never mutates its input: the body of
`perform_standard_cleaning` acts only on the working copy `df_cleaned`
(seeded by `df.copy()`), so after the run the caller's table `df` is
exactly the argument, and the result read from `df_cleaned` is the
engine's output. -/
theorem cleaning_does_not_mutate_input (t : Table) (th : Rat) (fs : String) :
    (runStandardCleaning t th fs).df = t ∧
    (runStandardCleaning t th fs).df_cleaned = perform_standard_cleaning t th fs :=
  ⟨rfl, rfl⟩

/-- C1: under any config, when the strategy is not "fill" the cleaned
columns are exactly the transforms of the deduplicated columns whose
missing percentage stays below the threshold — every column with
missing percentage at or above the threshold is absent; with the "fill"
strategy every deduplicated column is retained.  (Stated for tables
with pairwise-distinct column names; with a duplicated name the source
raises at line 182 and returns no table.) -/
theorem high_missing_columns_dropped_unless_fill (t : Table) (th : Rat) (fs : String)
    (hnd : t.names.Nodup) :
    (fs ≠ "fill" →
      (perform_standard_cleaning t th fs).cols =
        ((dedupTable t).cols.filter
          (fun c => ! shouldDrop (dedupTable t).nrows th c)).map colTransform) ∧
    (fs = "fill" →
      (perform_standard_cleaning t th fs).cols = (dedupTable t).cols.map colTransform) := by
  constructor <;> intro h
  · rw [clean_cols]
    unfold keptCols
    rw [if_neg h]
  · rw [clean_cols]
    unfold keptCols
    rw [if_pos h]

/-- Witness for C1 at a concrete table and config. -/
theorem high_missing_columns_dropped_unless_fill_witness :
    (Table.mk [⟨"a", .text [some "x", none]⟩]).names.Nodup ∧ "auto" ≠ "fill" ∧
    (perform_standard_cleaning (Table.mk [⟨"a", .text [some "x", none]⟩]) (mkRat 4 5) "auto").cols =
      ((dedupTable (Table.mk [⟨"a", .text [some "x", none]⟩])).cols.filter
        (fun c => ! shouldDrop (dedupTable (Table.mk [⟨"a", .text [some "x", none]⟩])).nrows
          (mkRat 4 5) c)).map colTransform :=
  ⟨by decide, by decide,
    (high_missing_columns_dropped_unless_fill _ (mkRat 4 5) "auto" (by decide)).1 (by decide)⟩

/-- C2: the Column Profiler does fail on a table with columns and zero
rows: the plain-integer division `missing_count / len(df)` at line 65
raises `ZeroDivisionError` instead of reporting 0 percent. -/
theorem profiler_zero_rows_raises :
    generate_data_report (Table.mk [⟨"a", .numeric []⟩]) =
      .error "ZeroDivisionError: division by zero" := rfl

/-- C8: on a table with a duplicated column name the profiler raises:
`df[col]` selects a two-column frame and `int(col_data.isnull().sum())`
at line 61 raises `TypeError`, so no Report (and no per-occurrence
profile) is produced. -/
theorem profiler_duplicate_name_raises :
    generate_data_report (Table.mk [⟨"a", .numeric [some 1]⟩, ⟨"a", .numeric [some 2]⟩]) =
      .error "TypeError: cannot convert the series to int" := rfl

/-- C7: on a one-column table whose column is entirely null, with
threshold 4/5 and strategy "auto", the preview classifies the column
`will_be_dropped` but lists it twice in `columns_to_drop` (appended at
line 475 and again at line 483), reports an estimated reduction of
200 percent and `columns_after_cleaning = -1`, while the engine itself
drops the column exactly once. -/
theorem preview_double_counts_dropped_columns :
    preview_will_be_dropped (Table.mk [⟨"a", .numeric [none]⟩]) (mkRat 4 5) "auto" = ["a"] ∧
    preview_columns_to_drop (Table.mk [⟨"a", .numeric [none]⟩]) (mkRat 4 5) "auto" = ["a", "a"] ∧
    preview_estimated_reduction (Table.mk [⟨"a", .numeric [none]⟩]) (mkRat 4 5) "auto" = 200 ∧
    preview_columns_after_cleaning (Table.mk [⟨"a", .numeric [none]⟩]) (mkRat 4 5) "auto" = -1 ∧
    (perform_standard_cleaning (Table.mk [⟨"a", .numeric [none]⟩]) (mkRat 4 5) "auto").ncols = 0 :=
  ⟨by decide, by decide, by decide, by decide, by decide⟩

/-- Counterexample to C3 as stated: on the structured-records input
`[{"a": 1}, {"a": 1, "b": null}]` the Issue Detector counts 0
duplicates (the canonical serializations differ) while the Column
Profiler, profiling the loaded table where the absent and the null
`"b"` both become null cells, counts 1 duplicate row. -/
theorem detector_profiler_duplicate_counts_disagree :
    detect_duplicates_json [[("a", .num 1)], [("a", .num 1), ("b", .null)]] = 0 ∧
    (recordsToTable [[("a", .num 1)], [("a", .num 1), ("b", .null)]]).map
        (fun t => (generate_data_report t).toOption.map (fun r => r.overview.duplicate_rows)) =
      some (some 1) :=
  ⟨by decide, by decide⟩

/-- C3 (amended): on delimited-text input the agreement holds — the
detector's `self.data.duplicated().sum()` equals the `duplicate_rows`
of any Report the profiler produces for the same table. -/
theorem detector_profiler_duplicates_agree_csv (t : Table) (r : Report)
    (h : generate_data_report t = .ok r) :
    detect_duplicates_csv t = r.overview.duplicate_rows := by
  unfold generate_data_report at h
  cases hd : detailsLoop t t.cols with
  | ok ds =>
    rw [hd] at h
    cases h
    rfl
  | error e =>
    rw [hd] at h
    cases h

/-- Witness for C3 (amended) at a concrete table. -/
theorem detector_profiler_duplicates_agree_csv_witness :
    generate_data_report (Table.mk [⟨"a", .numeric [some 1]⟩]) =
      .ok ⟨⟨1, 1, 0, 0⟩, [("a", ⟨0, 0, 1, false, false⟩)]⟩ ∧
    detect_duplicates_csv (Table.mk [⟨"a", .numeric [some 1]⟩]) =
      (Report.mk ⟨1, 1, 0, 0⟩ [("a", ⟨0, 0, 1, false, false⟩)]).overview.duplicate_rows :=
  ⟨rfl, detector_profiler_duplicates_agree_csv _ _ rfl⟩

/-- C9: a text column whose non-null values are all already lowercase
is never flagged `mixed_capitalization`: lowercasing is then the
identity on the values, the raw and the lowercased distinct counts
coincide, and the ratio 0 never reaches the 0.2 threshold. -/
theorem lowercase_text_column_not_mixed (n : Nat) (c : Col) (cs : List (Option String))
    (hdata : c.data = ColData.text cs)
    (hlow : ∀ s, some s ∈ cs → strLower s = s) :
    (detailsOf n c).mixed_capitalization = false := by
  have hmap : (cs.filterMap id).map strLower = cs.filterMap id := by
    have h : ∀ s ∈ cs.filterMap id, strLower s = id s := by
      intro s hs
      rcases List.mem_filterMap.mp hs with ⟨o, ho, hoe⟩
      cases o with
      | none => simp at hoe
      | some x =>
        have hx : x = s := Option.some.inj hoe
        subst hx
        simpa using hlow x ho
    exact (List.map_congr_left h).trans (List.map_id _)
  simp only [detailsOf, Col.uniqueCount, hdata]
  rw [hmap]
  by_cases h0 : (cs.filterMap id).dedup.length = 0
  · rw [if_pos h0]
    decide
  · rw [if_neg h0, sub_self]
    rw [decide_eq_false_iff_not]
    rw [Rat.mkRat_eq_div, Rat.mkRat_eq_div]
    push_cast
    rw [zero_div]
    norm_num

/-- Witness for C9 at a concrete all-lowercase column. -/
theorem lowercase_text_column_not_mixed_witness :
    (⟨"x", .text [some "ab"]⟩ : Col).data = ColData.text [some "ab"] ∧
    (∀ s, some s ∈ [some "ab"] → strLower s = s) ∧
    (detailsOf 1 ⟨"x", .text [some "ab"]⟩).mixed_capitalization = false :=
  ⟨rfl,
    fun s hs => by
      have : s = "ab" := Option.some.inj (List.mem_singleton.mp hs)
      subst this
      rfl,
    lowercase_text_column_not_mixed 1 ⟨"x", .text [some "ab"]⟩ [some "ab"] rfl
      (fun s hs => by
        have : s = "ab" := Option.some.inj (List.mem_singleton.mp hs)
        subst this
        rfl)⟩

/-- A selected column has as many cells as selected indices. -/
theorem len_select (c : Col) (ks : List Nat) : (c.select ks).len = ks.length := by
  cases hc : c.data <;>
    simp [Col.select, ColData.select, Col.len, ColData.len, hc]

/-- Every column of the deduplicated table has exactly one cell per
kept row index. -/
theorem dedup_col_len {t : Table} {c : Col} (hc : c ∈ (dedupTable t).cols) :
    c.len = t.keepIndices.length := by
  unfold dedupTable at hc
  rcases List.mem_map.mp hc with ⟨c0, _, rfl⟩
  exact len_select c0 _

/-- Folding `max` over columns of one common length gives that length. -/
theorem foldr_max_const {l : List Col} {k : Nat} (hne : l ≠ [])
    (hk : ∀ c ∈ l, c.len = k) :
    l.foldr (fun c m => max c.len m) 0 = k := by
  induction l with
  | nil => exact absurd rfl hne
  | cons c rest ih =>
    by_cases h : rest = []
    · subst h
      simp [hk c (by simp)]
    · have hr := ih h (fun c2 h2 => hk c2 (List.mem_cons_of_mem _ h2))
      simp only [List.foldr_cons, hr]
      rw [hk c (List.mem_cons_self c rest)]
      exact max_self k

/-- The row count of a table whose columns all store `k` cells. -/
theorem nrows_of_const_len {t : Table} {k : Nat} (hne : t.cols ≠ [])
    (hk : ∀ c ∈ t.cols, c.len = k) : t.nrows = k :=
  foldr_max_const hne hk

/-- The deduplicated table's row count is the number of kept indices. -/
theorem dedup_nrows {t : Table} (hne : (dedupTable t).cols ≠ []) :
    (dedupTable t).nrows = t.keepIndices.length :=
  nrows_of_const_len hne (fun _ hc => dedup_col_len hc)

/-- A list of options holding at least one `some` has fewer `none`
entries than elements. -/
theorem countP_isNone_lt_length {α : Type} {cs : List (Option α)}
    (h : cs.any (fun o => o.isSome) = true) :
    cs.countP (fun o => o.isNone) < cs.length := by
  rcases List.any_eq_true.mp h with ⟨o, ho, hso⟩
  rcases Nat.lt_or_ge (cs.countP (fun o => o.isNone)) cs.length with hlt | hge
  · exact hlt
  · have he : cs.countP (fun o => o.isNone) = cs.length :=
      Nat.le_antisymm (List.countP_le_length _) hge
    have := List.countP_eq_length.mp he o ho
    cases o with
    | none => simp at hso
    | some _ => simp at this

/-- A column with a present value has fewer nulls than cells. -/
theorem missing_lt_len_of_hasPresent {c : Col} (hp : c.hasPresent = true) :
    c.missingCount < c.len := by
  cases hd : c.data with
  | numeric cs =>
    have hp2 : cs.any (fun o => o.isSome) = true := by
      simpa [Col.hasPresent, hd] using hp
    simpa [Col.missingCount, Col.len, ColData.missingCount, ColData.len, hd] using
      countP_isNone_lt_length hp2
  | text cs =>
    have hp2 : cs.any (fun o => o.isSome) = true := by
      simpa [Col.hasPresent, hd] using hp
    simpa [Col.missingCount, Col.len, ColData.missingCount, ColData.len, hd] using
      countP_isNone_lt_length hp2

/-- C6 (amended): with `missing_threshold = 1.0`, every deduplicated
column holding at least one present value is retained by the engine,
under every fill strategy.  (As stated the claim fails: a column that
is 100 percent missing has missing percentage exactly 1.0 ≥ 1.0 and is
dropped, see `threshold_one_drops_all_null_column`.) -/
theorem threshold_one_keeps_partially_present_columns (t : Table) (fs : String)
    (hnd : t.names.Nodup) (c : Col) (hc : c ∈ (dedupTable t).cols)
    (hp : c.hasPresent = true) :
    colTransform c ∈ (perform_standard_cleaning t 1 fs).cols := by
  rw [clean_cols]
  unfold keptCols
  by_cases h : fs = "fill"
  · rw [if_pos h]
    exact List.mem_map_of_mem _ hc
  · rw [if_neg h]
    refine List.mem_map_of_mem _ (List.mem_filter.mpr ⟨hc, ?_⟩)
    have hne : (dedupTable t).cols ≠ [] := by
      intro h0
      rw [h0] at hc
      cases hc
    have hn : (dedupTable t).nrows = t.keepIndices.length := dedup_nrows hne
    have hlen : c.len = t.keepIndices.length := dedup_col_len hc
    have hmc : c.missingCount < (dedupTable t).nrows := by
      rw [hn, ← hlen]
      exact missing_lt_len_of_hasPresent hp
    unfold shouldDrop
    split
    · rfl
    · rename_i hn0
      rw [Bool.not_eq_true', decide_eq_false_iff_not]
      intro hge
      rw [Rat.mkRat_eq_div] at hge
      have hnpos : (0 : Rat) < ((dedupTable t).nrows : Rat) := by
        exact_mod_cast Nat.pos_of_ne_zero hn0
      have hlt1 : ((c.missingCount : Int) : Rat) / ((dedupTable t).nrows : Rat) < 1 := by
        rw [div_lt_one hnpos]
        exact_mod_cast hmc
      exact absurd hlt1 (not_lt.mpr hge)

/-- Counterexample to C6 as stated: at threshold 1.0 the engine drops
an entirely-null one-row column. -/
theorem threshold_one_drops_all_null_column :
    (Table.mk [⟨"a", .numeric [none]⟩]).ncols = 1 ∧
    perform_standard_cleaning (Table.mk [⟨"a", .numeric [none]⟩]) 1 "auto" = Table.mk [] :=
  ⟨by decide, by decide⟩

/-- Witness for C6 (amended) at a concrete table. -/
theorem threshold_one_keeps_partially_present_columns_witness :
    (Table.mk [⟨"a", .text [some "x", none]⟩]).names.Nodup ∧
    (⟨"a", .text [some "x", none]⟩ : Col) ∈ (dedupTable (Table.mk [⟨"a", .text [some "x", none]⟩])).cols ∧
    (⟨"a", .text [some "x", none]⟩ : Col).hasPresent = true ∧
    colTransform ⟨"a", .text [some "x", none]⟩ ∈
      (perform_standard_cleaning (Table.mk [⟨"a", .text [some "x", none]⟩]) 1 "auto").cols :=
  ⟨by decide, by decide, by decide,
    threshold_one_keeps_partially_present_columns _ "auto" (by decide) _ (by decide) (by decide)⟩

/-- The numeric fill leaves no nulls in a numeric payload. -/
theorem missingCount_fillNumData (cs : List (Option Rat)) :
    (fillNumData (.numeric cs)).missingCount = 0 := by
  simp only [fillNumData]
  by_cases h : cs.any (fun o => o.isNone) = true
  · rw [if_pos h]
    unfold ColData.missingCount
    rw [List.countP_eq_zero]
    intro a ha
    rcases List.mem_map.mp ha with ⟨o, _, rfl⟩
    simp
  · rw [if_neg h]
    unfold ColData.missingCount
    rw [List.countP_eq_zero]
    intro a ha hn
    exact h (List.any_eq_true.mpr ⟨a, ha, hn⟩)

/-- The numeric fill keeps the payload numeric. -/
theorem fillNumData_shape (cs : List (Option Rat)) :
    ∃ cs2, fillNumData (.numeric cs) = ColData.numeric cs2 := by
  simp only [fillNumData]
  by_cases h : cs.any (fun o => o.isNone) = true
  · rw [if_pos h]
    exact ⟨_, rfl⟩
  · rw [if_neg h]
    exact ⟨cs, rfl⟩

/-- The object fill keeps the payload text. -/
theorem fillTextData_shape (cs : List (Option String)) :
    ∃ cs2, fillTextData (.text cs) = ColData.text cs2 := by
  simp only [fillTextData]
  by_cases h : cs.any (fun o => o.isNone) = true
  · rw [if_pos h]
    cases strMode (cs.filterMap id) with
    | some m => exact ⟨_, rfl⟩
    | none => exact ⟨_, rfl⟩
  · rw [if_neg h]
    exact ⟨cs, rfl⟩

/-- The strip pass maps every cell of a text payload to a present
string, so no nulls remain. -/
theorem missingCount_stripData_text (cs : List (Option String)) :
    (stripData (.text cs)).missingCount = 0 := by
  simp only [stripData, ColData.missingCount]
  rw [List.countP_eq_zero]
  intro a ha
  rcases List.mem_map.mp ha with ⟨o, _, rfl⟩
  simp

/-- After the engine's per-column transform no nulls remain. -/
theorem missingCount_colTransform (c : Col) : (colTransform c).missingCount = 0 := by
  unfold colTransform renameCol stripCol fillTextCol fillNumCol
  show (stripData (fillTextData (fillNumData c.data))).missingCount = 0
  cases hd : c.data with
  | numeric cs =>
    rcases fillNumData_shape cs with ⟨cs1, h1⟩
    rw [h1]
    show (ColData.numeric cs1).missingCount = 0
    have h2 := missingCount_fillNumData cs
    rw [h1] at h2
    exact h2
  | text cs =>
    show (stripData (fillTextData (ColData.text cs))).missingCount = 0
    rcases fillTextData_shape cs with ⟨cs1, h1⟩
    rw [h1]
    exact missingCount_stripData_text cs1

/-- C10: the table returned by the Cleaning Engine contains no missing
values in any column: every retained numeric column with nulls was
imputed (mean, then median, then the constant 0) and every retained
text column was imputed (first mode, then "Unknown") and cast to
strings by the strip pass.  (Stated for tables with pairwise-distinct
column names, where the engine returns.) -/
theorem cleaned_table_has_no_missing_values (t : Table) (th : Rat) (fs : String)
    (hnd : t.names.Nodup) (c : Col) (hc : c ∈ (perform_standard_cleaning t th fs).cols) :
    c.missingCount = 0 := by
  rw [clean_cols] at hc
  rcases List.mem_map.mp hc with ⟨c0, _, rfl⟩
  exact missingCount_colTransform c0

/-- Witness for C10 at a concrete table and config. -/
theorem cleaned_table_has_no_missing_values_witness :
    (Table.mk [⟨"a", .numeric [some 1]⟩]).names.Nodup ∧
    (⟨"a", .numeric [some 1]⟩ : Col) ∈
      (perform_standard_cleaning (Table.mk [⟨"a", .numeric [some 1]⟩]) (mkRat 4 5) "auto").cols ∧
    (⟨"a", .numeric [some 1]⟩ : Col).missingCount = 0 :=
  ⟨by decide, by decide,
    cleaned_table_has_no_missing_values (Table.mk [⟨"a", .numeric [some 1]⟩]) (mkRat 4 5) "auto"
      (by decide) ⟨"a", .numeric [some 1]⟩ (by decide)⟩

/-- Dropping a satisfied predicate twice is the same as once. -/
theorem dropWhile_dropWhile_self (p : α → Bool) (l : List α) :
    (l.dropWhile p).dropWhile p = l.dropWhile p := by
  induction l with
  | nil => rfl
  | cons a l ih =>
    by_cases h : p a = true
    · rw [List.dropWhile_cons_of_pos h]
      exact ih
    · rw [List.dropWhile_cons_of_neg (by simpa using h),
        List.dropWhile_cons_of_neg (by simpa using h)]

/-- The head surviving `dropWhile p` does not satisfy `p`. -/
theorem head?_dropWhile_false (p : α → Bool) (l : List α) :
    ∀ c ∈ (l.dropWhile p).head?, p c = false := by
  induction l with
  | nil => intro c hc; cases hc
  | cons a l ih =>
    by_cases h : p a = true
    · rw [List.dropWhile_cons_of_pos h]
      exact ih
    · rw [List.dropWhile_cons_of_neg (by simpa using h)]
      intro c hc
      have h2 : a = c := by simpa using hc
      subst h2
      simpa using h

/-- A list whose head does not satisfy `p` is fixed by `dropWhile p`. -/
theorem dropWhile_eq_self_of_head (p : α → Bool) (l : List α)
    (h : ∀ c ∈ l.head?, p c = false) : l.dropWhile p = l := by
  cases l with
  | nil => rfl
  | cons a l =>
    have ha : p a = false := h a (by simp)
    rw [List.dropWhile_cons_of_neg (by simp [ha])]

/-- `dropWhile` removes an initial segment. -/
theorem dropWhile_suffix_ex (p : α → Bool) (l : List α) :
    ∃ s, s ++ l.dropWhile p = l := by
  induction l with
  | nil => exact ⟨[], rfl⟩
  | cons a l ih =>
    by_cases h : p a = true
    · rcases ih with ⟨s, hs⟩
      exact ⟨a :: s, by rw [List.dropWhile_cons_of_pos h, List.cons_append, hs]⟩
    · exact ⟨[], by rw [List.dropWhile_cons_of_neg (by simpa using h), List.nil_append]⟩

/-- A nonempty `dropWhile` output has the last element of its input. -/
theorem getLast?_dropWhile (p : α → Bool) (l : List α)
    (hne : l.dropWhile p ≠ []) : (l.dropWhile p).getLast? = l.getLast? := by
  rcases dropWhile_suffix_ex p l with ⟨s, hs⟩
  conv_rhs => rw [← hs]
  rw [List.getLast?_append]
  cases hk : (l.dropWhile p).getLast? with
  | none => exact absurd (List.getLast?_eq_none_iff.mp hk) hne
  | some a => simp

/-- The head of a stripped character list is not whitespace. -/
theorem pyStripL_head (l : List Char) :
    ∀ c ∈ (pyStripL l).head?, wsChar c = false := by
  intro c hc
  unfold pyStripL at hc
  rw [List.head?_reverse] at hc
  by_cases hk : ((l.dropWhile wsChar).reverse.dropWhile wsChar) = []
  · rw [hk] at hc
    cases hc
  · rw [getLast?_dropWhile wsChar _ hk, List.getLast?_reverse] at hc
    exact head?_dropWhile_false wsChar l c hc

/-- The last element of a stripped character list is not whitespace. -/
theorem pyStripL_getLast (l : List Char) :
    ∀ c ∈ (pyStripL l).getLast?, wsChar c = false := by
  intro c hc
  unfold pyStripL at hc
  rw [List.getLast?_reverse] at hc
  exact head?_dropWhile_false wsChar _ c hc

/-- A character list without whitespace at either end is fixed by the
strip. -/
theorem pyStripL_eq_self (l : List Char)
    (h1 : ∀ c ∈ l.head?, wsChar c = false)
    (h2 : ∀ c ∈ l.getLast?, wsChar c = false) : pyStripL l = l := by
  unfold pyStripL
  rw [dropWhile_eq_self_of_head wsChar l h1]
  rw [dropWhile_eq_self_of_head wsChar l.reverse (by
    intro c hc
    rw [List.head?_reverse] at hc
    exact h2 c hc)]
  exact List.reverse_reverse l

/-- Python `str.strip` on character lists is idempotent. -/
theorem pyStripL_idem (l : List Char) : pyStripL (pyStripL l) = pyStripL l :=
  pyStripL_eq_self _ (pyStripL_head l) (pyStripL_getLast l)

/-- A character list with no whitespace at all is fixed by the strip. -/
theorem pyStripL_eq_self_of_all (l : List Char)
    (h : ∀ c ∈ l, wsChar c = false) : pyStripL l = l :=
  pyStripL_eq_self l (fun c hc => h c (List.mem_of_mem_head? hc))
    (fun c hc => h c (List.mem_of_mem_getLast? hc))

/-- Python `str.strip` is idempotent. -/
theorem pyStrip_idem (s : String) : pyStrip (pyStrip s) = pyStrip s := by
  unfold pyStrip
  exact congrArg String.mk (pyStripL_idem s.toList)

/-- A name character kept by the regex is not whitespace. -/
theorem allowed_not_ws {c : Char} (h : allowedChar c = true) : wsChar c = false := by
  by_contra hw
  have hw2 : wsChar c = true := by
    cases hv : wsChar c with
    | true => rfl
    | false => exact absurd hv hw
  have hd : ((c = ' ' ∨ c = '\t') ∨ c = '\r') ∨ c = '\n' := by
    simpa [wsChar, Char.isWhitespace] using hw2
  rcases hd with ((rfl | rfl) | rfl) | rfl <;> exact absurd h (by decide)

/-- A name character kept by the regex is not the space character. -/
theorem allowed_ne_space {c : Char} (h : allowedChar c = true) : c ≠ ' ' := by
  intro hc
  subst hc
  exact absurd h (by decide)

/-- A name character kept by the regex is already lowercase. -/
theorem allowed_toLower {c : Char} (h : allowedChar c = true) : c.toLower = c := by
  have hr : (97 ≤ c.toNat ∧ c.toNat ≤ 122 ∨ 48 ≤ c.toNat ∧ c.toNat ≤ 57) ∨ c.toNat = 95 := by
    simpa [allowedChar, Bool.or_eq_true, Bool.and_eq_true, decide_eq_true_eq] using h
  unfold Char.toLower
  rw [if_neg (by omega)]

/-- Every character of a normalised column name is kept by the regex. -/
theorem cleanName_chars (s : String) :
    ∀ c ∈ (cleanName s).toList, allowedChar c = true := by
  intro c hc
  exact (List.mem_filter.mp hc).2

/-- Mapping a function that fixes every member fixes the list. -/
theorem map_eq_self_of (l : List α) (f : α → α) (h : ∀ a ∈ l, f a = a) :
    l.map f = l :=
  ((List.map_congr_left h).trans (List.map_id l))

/-- Column-name normalisation is idempotent. -/
theorem cleanName_idem (s : String) : cleanName (cleanName s) = cleanName s := by
  have hall : ∀ c ∈ ((((pyStripL s.toList).map Char.toLower).map
      (fun c => if c = ' ' then '_' else c)).filter allowedChar), allowedChar c = true :=
    fun c hc => (List.mem_filter.mp hc).2
  show String.mk ((((pyStripL ((((pyStripL s.toList).map Char.toLower).map
      (fun c => if c = ' ' then '_' else c)).filter allowedChar)).map Char.toLower).map
      (fun c => if c = ' ' then '_' else c)).filter allowedChar) = cleanName s
  rw [pyStripL_eq_self_of_all _ (fun c hc => allowed_not_ws (hall c hc))]
  rw [map_eq_self_of _ _ (fun c hc => allowed_toLower (hall c hc))]
  rw [map_eq_self_of _ _ (fun c hc => if_neg (allowed_ne_space (hall c hc)))]
  rw [List.filter_eq_self.mpr hall]
  rfl

/-- Structure eta for tables. -/
theorem table_eta (t : Table) : Table.mk t.cols = t := rfl

/-- Mapping `getD` over the full index range reproduces the list. -/
theorem map_getD_range {α : Type} (l : List α) (d : α) :
    (List.range l.length).map (fun i => l.getD i d) = l := by
  induction l with
  | nil => rfl
  | cons a l ih =>
    rw [List.length_cons, List.range_succ_eq_map, List.map_cons, List.map_map]
    have h2 : ((fun i => (a :: l).getD i d) ∘ Nat.succ) = fun i => l.getD i d := by
      funext i
      rfl
    rw [h2, ih]
    rfl

/-- Selecting every index of a column in order is the identity. -/
theorem col_select_range (c : Col) : c.select (List.range c.len) = c := by
  have h : c.data.select (List.range c.data.len) = c.data := by
    cases c.data with
    | numeric cs =>
      simp only [ColData.select, ColData.len]
      rw [map_getD_range]
    | text cs =>
      simp only [ColData.select, ColData.len]
      rw [map_getD_range]
  show Col.mk c.name (c.data.select (List.range c.len)) = c
  rw [show c.len = c.data.len from rfl, h]

/-- With no duplicate rows every row index is kept. -/
theorem keepIndices_of_no_dup {u : Table} (hd : u.dupRowCount = 0) :
    u.keepIndices = List.range u.nrows := by
  unfold Table.dupRowCount at hd
  unfold Table.keepIndices
  apply List.filter_eq_self.mpr
  intro i hi
  have hni := List.countP_eq_zero.mp hd i hi
  cases hv : u.isNewRow i with
  | true => rfl
  | false => exact absurd (by simp [hv]) hni

/-- A duplicate-free rectangular table is fixed by deduplication. -/
theorem dedup_eq_self {u : Table} (hd : u.dupRowCount = 0)
    (hrect : ∀ c ∈ u.cols, c.len = u.nrows) : dedupTable u = u := by
  unfold dedupTable
  rw [keepIndices_of_no_dup hd]
  rw [map_eq_self_of _ _ (fun c hc => by
    rw [← hrect c hc]
    exact col_select_range c)]

/-- The numeric fill preserves the cell count. -/
theorem len_fillNumData (d : ColData) : (fillNumData d).len = d.len := by
  cases d with
  | numeric cs =>
    simp only [fillNumData]
    split
    · simp [ColData.len]
    · rfl
  | text cs => rfl

/-- The object fill preserves the cell count. -/
theorem len_fillTextData (d : ColData) : (fillTextData d).len = d.len := by
  cases d with
  | text cs =>
    simp only [fillTextData]
    split
    · cases strMode (cs.filterMap id) with
      | some m => simp [ColData.len]
      | none => simp [ColData.len]
    · rfl
  | numeric cs => rfl

/-- The strip pass preserves the cell count. -/
theorem len_stripData (d : ColData) : (stripData d).len = d.len := by
  cases d with
  | text cs => simp [stripData, ColData.len]
  | numeric cs => rfl

/-- The engine's per-column transform preserves the cell count. -/
theorem len_colTransform (c : Col) : (colTransform c).len = c.len := by
  show (stripData (fillTextData (fillNumData c.data))).len = c.data.len
  rw [len_stripData, len_fillTextData, len_fillNumData]

/-- Retained columns come from the deduplicated table. -/
theorem keptCols_subset (t : Table) (th : Rat) (fs : String) :
    ∀ c ∈ keptCols t th fs, c ∈ (dedupTable t).cols := by
  intro c hc
  unfold keptCols at hc
  split at hc
  · exact hc
  · exact (List.mem_filter.mp hc).1

/-- A quotient of naturals is a nonnegative rational. -/
theorem mkRat_nat_nonneg (m n : Nat) : 0 ≤ mkRat (m : Int) n := by
  rw [Rat.mkRat_eq_div]
  apply div_nonneg
  · exact_mod_cast Int.natCast_nonneg m
  · exact_mod_cast Nat.zero_le n

/-- A zero numerator gives the zero rational. -/
theorem mkRat_zero_num (n : Nat) : mkRat (0 : Int) n = 0 := by
  rw [Rat.mkRat_eq_div]
  simp

/-- The strip pass on a payload is idempotent. -/
theorem stripData_idem (d : ColData) : stripData (stripData d) = stripData d := by
  cases d with
  | numeric cs => rfl
  | text cs =>
    simp only [stripData, List.map_map]
    refine congrArg ColData.text (List.map_congr_left (fun o _ => ?_))
    show some (pyStrip (pyStrip (cellStr o))) = some (pyStrip (cellStr o))
    exact congrArg some (pyStrip_idem (cellStr o))

/-- Stripping commutes with renaming (they touch different fields). -/
theorem stripCol_renameCol (z : Col) : stripCol (renameCol z) = renameCol (stripCol z) := rfl

/-- The strip pass on a column is idempotent. -/
theorem stripCol_idem (z : Col) : stripCol (stripCol z) = stripCol z := by
  show Col.mk z.name (stripData (stripData z.data)) = Col.mk z.name (stripData z.data)
  rw [stripData_idem]

/-- Renaming a column is idempotent. -/
theorem renameCol_idem (z : Col) : renameCol (renameCol z) = renameCol z := by
  show Col.mk (cleanName (cleanName z.name)) z.data = Col.mk (cleanName z.name) z.data
  rw [cleanName_idem]

/-- A column without nulls is fixed by the numeric fill. -/
theorem fillNumCol_of_no_missing {c : Col} (h : c.missingCount = 0) : fillNumCol c = c := by
  obtain ⟨nm, d⟩ := c
  show Col.mk nm (fillNumData d) = Col.mk nm d
  cases d with
  | text cs => rfl
  | numeric cs =>
    have hmc : cs.countP (fun o => o.isNone) = 0 := h
    have hany : cs.any (fun o => o.isNone) = false :=
      List.any_eq_false.mpr (fun x hx => List.countP_eq_zero.mp hmc x hx)
    simp only [fillNumData]
    rw [if_neg (by simp [hany])]

/-- A column without nulls is fixed by the object fill. -/
theorem fillTextCol_of_no_missing {c : Col} (h : c.missingCount = 0) : fillTextCol c = c := by
  obtain ⟨nm, d⟩ := c
  show Col.mk nm (fillTextData d) = Col.mk nm d
  cases d with
  | numeric cs => rfl
  | text cs =>
    have hmc : cs.countP (fun o => o.isNone) = 0 := h
    have hany : cs.any (fun o => o.isNone) = false :=
      List.any_eq_false.mpr (fun x hx => List.countP_eq_zero.mp hmc x hx)
    simp only [fillTextData]
    rw [if_neg (by simp [hany])]

/-- Counterexample to C4 as stated: whitespace stripping can make two
previously distinct rows equal, so running the engine a second time
with the same config removes a row of its own output. -/
theorem cleaning_not_idempotent :
    perform_standard_cleaning
        (perform_standard_cleaning (Table.mk [⟨"a", .text [some " x", some "x"]⟩])
          (mkRat 4 5) "auto")
        (mkRat 4 5) "auto" ≠
      perform_standard_cleaning (Table.mk [⟨"a", .text [some " x", some "x"]⟩])
        (mkRat 4 5) "auto" := by
  decide

/-- C4 (amended): the Cleaning Engine is idempotent on every input
whose cleaned output has no duplicate rows (imputation and whitespace
trimming can merge previously distinct rows, in which case only the
residual deduplication acts on a second run; the input and output
tables are assumed to have pairwise-distinct column names, where the
engine is defined). -/
theorem cleaning_idempotent_amended (t : Table) (th : Rat) (fs : String)
    (hnd : t.names.Nodup)
    (hnd2 : (perform_standard_cleaning t th fs).names.Nodup)
    (hdup : (perform_standard_cleaning t th fs).dupRowCount = 0) :
    perform_standard_cleaning (perform_standard_cleaning t th fs) th fs =
      perform_standard_cleaning t th fs := by
  set u := perform_standard_cleaning t th fs with hu
  have hcols : u.cols = (keptCols t th fs).map colTransform := clean_cols t th fs
  have hmc : ∀ c ∈ u.cols, c.missingCount = 0 := by
    intro c hc
    rw [hcols] at hc
    rcases List.mem_map.mp hc with ⟨c0, _, rfl⟩
    exact missingCount_colTransform c0
  have hlen : ∀ c ∈ u.cols, c.len = t.keepIndices.length := by
    intro c hc
    rw [hcols] at hc
    rcases List.mem_map.mp hc with ⟨c0, hc0, rfl⟩
    rw [len_colTransform]
    exact dedup_col_len (keptCols_subset t th fs c0 hc0)
  have hrect : ∀ c ∈ u.cols, c.len = u.nrows := by
    intro c hc
    have hne : u.cols ≠ [] := by
      intro h0
      rw [h0] at hc
      cases hc
    rw [nrows_of_const_len hne hlen]
    exact hlen c hc
  have h1 : dedupTable u = u := dedup_eq_self hdup hrect
  have h2 : dropStep th fs u = u := by
    unfold dropStep
    by_cases hf : fs = "fill"
    · rw [if_pos hf]
    · have hall : ∀ c ∈ u.cols, (! shouldDrop u.nrows th c) = true := by
        intro c hc
        have hcu : u.cols ≠ [] := by
          intro h0
          rw [h0] at hc
          cases hc
        have h0mc := hmc c hc
        unfold shouldDrop
        by_cases hn : u.nrows = 0
        · rw [if_pos hn]
          rfl
        · rw [if_neg hn, Bool.not_eq_true', decide_eq_false_iff_not]
          intro hge
          rw [h0mc] at hge
          rw [show ((0 : Nat) : Int) = 0 from rfl, mkRat_zero_num] at hge
          rw [hcols] at hc
          rcases List.mem_map.mp hc with ⟨c0, hc0, rfl⟩
          unfold keptCols at hc0
          rw [if_neg hf] at hc0
          have hc0d := (List.mem_filter.mp hc0).1
          have hsd : shouldDrop (dedupTable t).nrows th c0 = false := by
            have hflt := (List.mem_filter.mp hc0).2
            cases hv : shouldDrop (dedupTable t).nrows th c0 with
            | false => rfl
            | true =>
              rw [hv] at hflt
              cases hflt
          have hne1 : (dedupTable t).cols ≠ [] := by
            intro h0
            rw [h0] at hc0d
            cases hc0d
          have hn1 : (dedupTable t).nrows = t.keepIndices.length := dedup_nrows hne1
          have hkne : t.keepIndices.length ≠ 0 := by
            intro h0
            apply hn
            rw [nrows_of_const_len hcu hlen, h0]
          have hn1ne : (dedupTable t).nrows ≠ 0 := by
            rw [hn1]
            exact hkne
          unfold shouldDrop at hsd
          rw [if_neg hn1ne, decide_eq_false_iff_not] at hsd
          exact hsd (le_trans hge (mkRat_nat_nonneg _ _))
      rw [if_neg hf, List.filter_eq_self.mpr hall]
  have h3 : fillNumStep u = u := by
    unfold fillNumStep
    rw [map_eq_self_of _ _ (fun c hc => fillNumCol_of_no_missing (hmc c hc))]
  have h4 : fillTextStep u = u := by
    unfold fillTextStep
    rw [map_eq_self_of _ _ (fun c hc => fillTextCol_of_no_missing (hmc c hc))]
  have h5 : stripStep u = u := by
    unfold stripStep
    rw [map_eq_self_of _ _ (fun c hc => by
      rw [hcols] at hc
      rcases List.mem_map.mp hc with ⟨c0, _, rfl⟩
      show stripCol (colTransform c0) = colTransform c0
      unfold colTransform
      rw [stripCol_renameCol, stripCol_idem])]
  have h6 : renameStep u = u := by
    unfold renameStep
    rw [map_eq_self_of _ _ (fun c hc => by
      rw [hcols] at hc
      rcases List.mem_map.mp hc with ⟨c0, _, rfl⟩
      show renameCol (colTransform c0) = colTransform c0
      unfold colTransform
      rw [renameCol_idem])]
  show renameStep (stripStep (fillTextStep (fillNumStep (dropStep th fs (dedupTable u))))) = u
  rw [h1, h2, h3, h4, h5, h6]

/-- Witness for C4 (amended) at a concrete table and config. -/
theorem cleaning_idempotent_amended_witness :
    (Table.mk [⟨"a", .text [some "x"]⟩]).names.Nodup ∧
    (perform_standard_cleaning (Table.mk [⟨"a", .text [some "x"]⟩]) (mkRat 4 5) "auto").names.Nodup ∧
    (perform_standard_cleaning (Table.mk [⟨"a", .text [some "x"]⟩]) (mkRat 4 5) "auto").dupRowCount = 0 ∧
    perform_standard_cleaning
        (perform_standard_cleaning (Table.mk [⟨"a", .text [some "x"]⟩]) (mkRat 4 5) "auto")
        (mkRat 4 5) "auto" =
      perform_standard_cleaning (Table.mk [⟨"a", .text [some "x"]⟩]) (mkRat 4 5) "auto" :=
  ⟨by decide, by decide, by decide,
    cleaning_idempotent_amended (Table.mk [⟨"a", .text [some "x"]⟩]) (mkRat 4 5) "auto"
      (by decide) (by decide) (by decide)⟩

